import Mathlib

/-!
Shallow embedding of the Vizias/AIworkshop teaching notebooks.

The chest-X-ray notebook (src/unnamed/part_000) sets hyperparameters and
data paths, loads two pickled label dictionaries, merges them, and defines
`load_batch`, `train_generator` and `val_generator` feeding batches to
`model.fit_generator`.  The MNIST notebook builds a Sequential MLP
(Dense 512 / Dropout / Dense 512 / Dropout / Dense 10 on 784 inputs).

External library behaviour (PIL image operations, the ResNet-50
`preprocess_input` normalization, numpy's shuffle and coin flips, Keras
checkpoint callbacks) is modelled by explicit Lean functions; the
notebook's own code is translated line by line.
-/

namespace AIworkshop

/-! ## Hyperparameters and global variables (part_000, cell 2) -/

/-- Hyperparameter `IMAGE_SIZE = 256`. -/
def IMAGE_SIZE : Nat := 256

/-- Hyperparameter `BATCH_SIZE = 16`. -/
def BATCH_SIZE : Nat := 16

/-- Hyperparameter `NUM_EPOCHS = 1`. -/
def NUM_EPOCHS : Nat := 1

/-- Hyperparameter `LEARNING_RATE = 0.001`, represented exactly as a rational. -/
def LEARNING_RATE : ℚ := 1 / 1000

/-- Path `EXPERIMENT_OUTPUT_PATH = os.environ.get('HOME') + "/notebooks/output/experiment"`,
as a function of the value of the `HOME` environment variable. -/
def EXPERIMENT_OUTPUT_PATH (home : String) : String :=
  home ++ "/notebooks/output/experiment"

/-- Path `IMAGES_PATH = os.environ.get('HOME') + "/notebooks/images_all"`. -/
def IMAGES_PATH (home : String) : String :=
  home ++ "/notebooks/images_all"

/-- Path `TRAINING_LABELS = os.environ.get('HOME') + "/notebooks/training_labels_new.pkl"`. -/
def TRAINING_LABELS (home : String) : String :=
  home ++ "/notebooks/training_labels_new.pkl"

/-- Path `VALIDATION_LABELS = os.environ.get('HOME') + "/notebooks/validation_labels_new.pkl"`. -/
def VALIDATION_LABELS (home : String) : String :=
  home ++ "/notebooks/validation_labels_new.pkl"

/-! ## Label dictionaries (part_000, cell 3)

A Python dict is modelled as an association list together with the
last-binding-wins lookup that `dict(pairs)` construction induces:
in `dict(list(a.items()) + list(b.items()))` a key of both `a` and `b`
gets the value from `b`. -/

/-- A label is the fixed-length binary vector stored in the pickle. -/
abbrev Label := List Nat

/-- A dictionary, as its item list. -/
abbrev Dict := List (String × Label)

/-- Lookup with Python `dict(pairs)` semantics: the last pair with the key wins. -/
def pyDictLookup (d : Dict) (k : String) : Option Label :=
  d.foldl (fun acc p => if p.1 = k then some p.2 else acc) none

/-- Python `list(d.keys())`. -/
def dictKeys (d : Dict) : List String :=
  d.map Prod.fst

/-- The merge `labels = dict(list(training_labels.items()) + list(validation_labels.items()))`. -/
def mergedLabels (training_labels validation_labels : Dict) : Dict :=
  training_labels ++ validation_labels

/-! ## MNIST MLP (src/DL_Deep_Dive-Training-keras_mnist_MLP.ipynb, cell 9) -/

/-- Hyperparameter `num_classes = 10`. -/
def num_classes : Nat := 10

/-- A Keras layer as added to the `Sequential` model: a fully connected
`Dense` layer with the given number of units, or a `Dropout` layer. -/
inductive KerasLayer where
  | dense (units : Nat)
  | dropout (rate : ℚ)
deriving DecidableEq

/-- The layer stack of
`model.add(Dense(512, input_shape=(784,))); model.add(Dropout(0.2));
model.add(Dense(512)); model.add(Dropout(0.2)); model.add(Dense(num_classes))`. -/
def mnistModelLayers : List KerasLayer :=
  [KerasLayer.dense 512, KerasLayer.dropout (2/10),
   KerasLayer.dense 512, KerasLayer.dropout (2/10),
   KerasLayer.dense num_classes]

/-- Trainable parameter count of a `Sequential` stack fed `prev` inputs:
a `Dense u` layer has a `prev × u` weight matrix plus one bias per neuron,
a `Dropout` layer has no parameters. -/
def paramCount (prev : Nat) : List KerasLayer → Nat
  | [] => 0
  | KerasLayer.dense u :: rest => (prev * u + u) + paramCount u rest
  | KerasLayer.dropout _ :: rest => paramCount prev rest

/-- Input width `input_shape=(784,)`: 28 × 28 grayscale pixels. -/
def mnistInputDim : Nat := 784

/-! ## Images and the PIL / Keras operations used by `load_batch`

An image is its shape plus its (abstract, row-major) pixel contents. -/

structure Image where
  width : Nat
  height : Nat
  channels : Nat
  data : List Int
deriving DecidableEq

/-- PIL `img.convert('RGB')`: re-expresses the pixels in 3 channels. -/
def pilConvertRGB (img : Image) : Image :=
  { img with channels := 3 }

/-- PIL `img.resize((w, h), pil.NEAREST)`: nearest-neighbour resampling to the
requested shape. -/
def pilResize (img : Image) (w h : Nat) : Image :=
  { img with width := w, height := h }

/-- The operation `PIL.ImageOps.mirror(img)`: horizontal flip, reversing the pixel order
within the same shape. -/
def pilMirror (img : Image) : Image :=
  { img with data := img.data.reverse }

/-- Keras `keras.applications.resnet50.preprocess_input`: elementwise mean
subtraction, preserving the array shape. -/
def preprocess_input (img : Image) : Image :=
  { img with data := img.data.map (fun x => x - 117) }

/-- Python `os.path.join(dir, file)` for an absolute directory and a bare filename. -/
def pathJoin (dir file : String) : String :=
  dir ++ "/" ++ file

/-- The errors `load_batch` can propagate: `IOError` from
`pil.open` on a missing image file, `KeyError` from `labels[filename]`. -/
inductive LoadError where
  | fileNotFound (filename : String)
  | keyMissing (filename : String)
deriving DecidableEq

/-- Coin flips driving `np.random.randint(2)`; the head is the next draw. -/
abbrev Coins := List Bool

/-- The per-filename loop body of `load_batch`: open, convert, resize,
randomly mirror when `is_training`, collect the image and its label.
Returns the collected lists (or the first error) and the remaining coins. -/
def loadBatchLoop (fs : String → Option Image) (imagesPath : String)
    (labels : Dict) (isTraining : Bool) :
    List String → Coins → Except LoadError (List Image × List Label) × Coins
  | [], coins => (Except.ok ([], []), coins)
  | filename :: rest, coins =>
    match fs (pathJoin imagesPath filename) with
    | none => (Except.error (LoadError.fileNotFound filename), coins)
    | some img0 =>
      let img1 := pilResize (pilConvertRGB img0) IMAGE_SIZE IMAGE_SIZE
      let flip := isTraining && coins.headD false
      let coins1 := if isTraining then coins.tail else coins
      let img2 := if flip then pilMirror img1 else img1
      match pyDictLookup labels filename with
      | none => (Except.error (LoadError.keyMissing filename), coins1)
      | some lab =>
        match loadBatchLoop fs imagesPath labels isTraining rest coins1 with
        | (Except.ok (imgs, labs), coins2) =>
          (Except.ok (img2 :: imgs, lab :: labs), coins2)
        | (Except.error e, coins2) => (Except.error e, coins2)

/-- The function `load_batch(batch_of_files, is_training)`: run the loop, then return
`preprocess_input` applied to the stacked image array together with the
label array. -/
def load_batch (fs : String → Option Image) (imagesPath : String)
    (labels : Dict) (batch_of_files : List String) (isTraining : Bool)
    (coins : Coins) : Except LoadError (List Image × List Label) × Coins :=
  match loadBatchLoop fs imagesPath labels isTraining batch_of_files coins with
  | (Except.ok (imgs, labs), coins1) =>
    (Except.ok (imgs.map preprocess_input, labs), coins1)
  | (Except.error e, coins1) => (Except.error e, coins1)

/-- Whether an `Except` result is an error. -/
def isErr {ε α : Type} : Except ε α → Bool
  | Except.error _ => true
  | Except.ok _ => false

/-! ## The batch generators (part_000, cell 3)

`training_files[i*BATCH_SIZE : i*BATCH_SIZE + BATCH_SIZE]` -/

/-- The Python slice `files[i*b : i*b + b]` (clamped at the list end). -/
def batchSlice (files : List String) (b i : Nat) : List String :=
  (files.drop (i * b)).take b

/-- Numpy `np.random.shuffle`, modelled as an extraction shuffle driven by a list
of random draws: each step removes the element at index `r % len` and
prepends it. The result is a permutation of the input. -/
def npShuffle {α : Type} : List Nat → List α → List α
  | [], l => l
  | _ :: _, [] => []
  | r :: rs, x :: xs =>
    let l := x :: xs
    let k := r % l.length
    (l.getD k x) :: npShuffle rs (l.eraseIdx k)

/-! ## Run state

The mutable globals of the notebook after cell 3: the merged label table,
the two shuffled-in-place file arrays, and np.random's hidden state
(a stream of shuffle seeds and a stream of coin flips). -/

structure RunState where
  labels : Dict
  training_files : List String
  validation_files : List String
  shuffleSeeds : List (List Nat)
  coins : Coins
deriving DecidableEq

/-- The initial state built by cell 3 from the two unpickled dictionaries. -/
def initState (training_labels validation_labels : Dict)
    (shuffleSeeds : List (List Nat)) (coins : Coins) : RunState :=
  { labels := mergedLabels training_labels validation_labels
    training_files := dictKeys training_labels
    validation_files := dictKeys validation_labels
    shuffleSeeds := shuffleSeeds
    coins := coins }

/-- One yield of `load_batch` inside a generator: only np.random's coin
stream advances. -/
def loadBatchStep (fs : String → Option Image) (imagesPath : String)
    (s : RunState) (batch_of_files : List String) (isTraining : Bool) :
    Except LoadError (List Image × List Label) × RunState :=
  match load_batch fs imagesPath s.labels batch_of_files isTraining s.coins with
  | (res, coins1) => (res, { s with coins := coins1 })

/-- The inner `for i in range(...)` loop of a generator pass, yielding the
batches sliced from `files` starting at step index `i`, `n` steps to go. -/
def generatorSteps (fs : String → Option Image) (imagesPath : String)
    (files : List String) (isTraining : Bool) (i : Nat) :
    Nat → RunState → RunState × List (Except LoadError (List Image × List Label))
  | 0, s => (s, [])
  | n + 1, s =>
    match loadBatchStep fs imagesPath s (batchSlice files BATCH_SIZE i) isTraining with
    | (res, s1) =>
      match generatorSteps fs imagesPath files isTraining (i + 1) n s1 with
      | (s2, rest) => (s2, res :: rest)

/-- One pass of `train_generator(num_of_steps)`: shuffle `training_files`
in place, then yield `num_of_steps` consecutive `BATCH_SIZE` slices, each
loaded with `is_training=True`. -/
def trainGeneratorPass (fs : String → Option Image) (imagesPath : String)
    (num_of_steps : Nat) (s : RunState) :
    RunState × List (Except LoadError (List Image × List Label)) :=
  let files1 := npShuffle (s.shuffleSeeds.headD []) s.training_files
  let s1 := { s with training_files := files1, shuffleSeeds := s.shuffleSeeds.tail }
  generatorSteps fs imagesPath files1 true 0 num_of_steps s1

/-- One pass of `val_generator(num_of_steps)`: shuffle `validation_files`
in place, then yield `num_of_steps` consecutive `BATCH_SIZE` slices.
The source also passes `is_training=True` here (line 120). -/
def valGeneratorPass (fs : String → Option Image) (imagesPath : String)
    (num_of_steps : Nat) (s : RunState) :
    RunState × List (Except LoadError (List Image × List Label)) :=
  let files1 := npShuffle (s.shuffleSeeds.headD []) s.validation_files
  let s1 := { s with validation_files := files1, shuffleSeeds := s.shuffleSeeds.tail }
  generatorSteps fs imagesPath files1 true 0 num_of_steps s1

/-- The call `model.fit_generator(...)`: per epoch, consume `steps_per_epoch`
training batches and `validation_steps` validation batches. -/
def fitGeneratorLoop (fs : String → Option Image) (imagesPath : String)
    (steps_per_epoch validation_steps : Nat) :
    Nat → RunState → RunState
  | 0, s => s
  | e + 1, s =>
    let s1 := (trainGeneratorPass fs imagesPath steps_per_epoch s).1
    let s2 := (valGeneratorPass fs imagesPath validation_steps s1).1
    fitGeneratorLoop fs imagesPath steps_per_epoch validation_steps e s2

/-! ## The training cell (part_000, cell 7) -/

/-- The value `steps_per_epoch = 77871 // BATCH_SIZE`. -/
def steps_per_epoch : Nat := 77871 / BATCH_SIZE

/-- The value `val_steps = 8653 // BATCH_SIZE`. -/
def val_steps : Nat := 8653 / BATCH_SIZE

/-- The literal first format argument of
`'/lr_\x7b:.3f\x7d_bz_\x7b:d\x7d'.format(0.001, 16)`. -/
def weightsFileLrArg : ℚ := 1 / 1000

/-- The literal second format argument of the same call. -/
def weightsFileBzArg : Nat := 16

/-- The template `weights_file = EXPERIMENT_OUTPUT_PATH + '/lr_\x7b:.3f\x7d_bz_\x7b:d\x7d'.format(0.001, 16)
+ '_loss_\x7bval_loss:.3f\x7d_epoch_\x7bepoch:02d\x7d.h5'`, with the two format
holes already filled by Python's `str.format`. -/
def weights_file (home : String) : String :=
  EXPERIMENT_OUTPUT_PATH home ++ "/lr_0.001_bz_16"
    ++ "_loss_\x7bval_loss:.3f\x7d_epoch_\x7bepoch:02d\x7d.h5"

/-- A Keras callback, as far as filesystem effects go: a `ModelCheckpoint`
writing to a path template, or any other callback. -/
inductive KerasCallback where
  | modelCheckpoint (pathTemplate : String)
  | other
deriving DecidableEq

/-- The `callbacks=[ ]` argument of the `model.fit_generator` call. -/
def fitGeneratorCallbacksArg : List KerasCallback := []

/-- The checkpoint path templates a training run writes to: exactly those
of the `ModelCheckpoint` callbacks passed to `fit_generator`. -/
def checkpointTemplatesWritten (callbacks : List KerasCallback) : List String :=
  callbacks.filterMap fun c =>
    match c with
    | KerasCallback.modelCheckpoint p => some p
    | KerasCallback.other => none

/-! ## Helper lemmas -/

theorem getD_cons_eraseIdx_perm {α : Type} :
    ∀ (l : List α) (k : Nat), k < l.length → ∀ d : α,
      List.Perm ((l.getD k d) :: l.eraseIdx k) l := by
  intro l
  induction l with
  | nil => intro k hk; simp at hk
  | cons a as ih =>
    intro k hk d
    cases k with
    | zero => simp [List.getD]
    | succ k =>
      have hk' : k < as.length := by simpa using hk
      exact (List.Perm.swap a (as.getD k d) (as.eraseIdx k)).trans
        (List.Perm.cons a (ih k hk' d))

theorem npShuffle_perm {α : Type} :
    ∀ (rs : List Nat) (l : List α), List.Perm (npShuffle rs l) l := by
  intro rs
  induction rs with
  | nil => intro l; simp [npShuffle]
  | cons r rs ih =>
    intro l
    cases l with
    | nil => simp [npShuffle]
    | cons x xs =>
      have hk : r % (x :: xs).length < (x :: xs).length :=
        Nat.mod_lt _ (by simp)
      have hstep : npShuffle (r :: rs) (x :: xs)
          = ((x :: xs).getD (r % (x :: xs).length) x)
              :: npShuffle rs ((x :: xs).eraseIdx (r % (x :: xs).length)) := rfl
      rw [hstep]
      exact (List.Perm.cons _ (ih _)).trans
        (getD_cons_eraseIdx_perm _ _ hk x)

theorem npShuffle_length {α : Type} (rs : List Nat) (l : List α) :
    (npShuffle rs l).length = l.length :=
  (npShuffle_perm rs l).length_eq

theorem npShuffle_nodup {α : Type} (rs : List Nat) (l : List α)
    (h : l.Nodup) : (npShuffle rs l).Nodup :=
  ((npShuffle_perm rs l).nodup_iff).mpr h

theorem npShuffle_mem {α : Type} (rs : List Nat) (l : List α) (x : α)
    (h : x ∈ npShuffle rs l) : x ∈ l :=
  ((npShuffle_perm rs l).mem_iff).mp h

theorem batchSlice_length (files : List String) (b i : Nat) (hb : 0 < b)
    (hi : i < files.length / b) : (batchSlice files b i).length = b := by
  have h1 : (i + 1) * b ≤ (files.length / b) * b :=
    Nat.mul_le_mul_right b hi
  have h2 : (files.length / b) * b ≤ files.length :=
    Nat.div_mul_le_self files.length b
  have h3 : i * b + b ≤ files.length := by
    rw [Nat.succ_mul] at h1; omega
  simp only [batchSlice, List.length_take, List.length_drop]
  omega

theorem batchSlice_subset_take (files : List String) (b i : Nat) (x : String)
    (hx : x ∈ batchSlice files b i) : x ∈ files.take (i * b + b) := by
  have h : batchSlice files b i = (files.take (i * b + b)).drop (i * b) := by
    simp [batchSlice, List.drop_take]
  rw [h] at hx
  exact List.mem_of_mem_drop hx

theorem batchSlice_subset_drop (files : List String) (b i : Nat) (x : String)
    (hx : x ∈ batchSlice files b i) : x ∈ files.drop (i * b) :=
  List.mem_of_mem_take hx

theorem foldl_lookup_isSome (k : String) :
    ∀ (d : Dict) (acc : Option Label),
      (d.foldl (fun acc p => if p.1 = k then some p.2 else acc) acc).isSome
        ↔ acc.isSome = true ∨ ∃ q ∈ d, q.1 = k := by
  intro d
  induction d with
  | nil => intro acc; simp
  | cons q d ih =>
    intro acc
    simp only [List.foldl_cons]
    rw [ih]
    by_cases hq : q.1 = k
    · simp [hq]
    · simp [hq]

theorem pyDictLookup_isSome_iff (d : Dict) (k : String) :
    (pyDictLookup d k).isSome ↔ k ∈ dictKeys d := by
  rw [pyDictLookup, foldl_lookup_isSome]
  simp [dictKeys, List.mem_map]

theorem loadBatchLoop_no_keyMissing (fs : String → Option Image)
    (p : String) (labels : Dict) (t : Bool) :
    ∀ (files : List String) (coins : Coins),
      (∀ g ∈ files, (pyDictLookup labels g).isSome) →
      ∀ f, (loadBatchLoop fs p labels t files coins).1
        ≠ Except.error (LoadError.keyMissing f) := by
  intro files
  induction files with
  | nil => intro coins h f; simp [loadBatchLoop]
  | cons a rest ih =>
    intro coins h f
    have ha : (pyDictLookup labels a).isSome := h a (by simp)
    obtain ⟨lab, hlab⟩ := Option.isSome_iff_exists.mp ha
    have hrest : ∀ g ∈ rest, (pyDictLookup labels g).isSome :=
      fun g hg => h g (by simp [hg])
    simp only [loadBatchLoop]
    cases hfs : fs (pathJoin p a) with
    | none => simp
    | some img0 =>
      simp only [hlab]
      cases hrec : loadBatchLoop fs p labels t rest
          (if t then coins.tail else coins) with
      | mk res coins2 =>
        cases res with
        | ok pr =>
          cases pr with
          | mk imgs labs => simp
        | error e =>
          have := ih (if t then coins.tail else coins) hrest f
          rw [hrec] at this
          simpa using this

theorem loadBatchLoop_err_iff (fs : String → Option Image)
    (p : String) (labels : Dict) (t : Bool) :
    ∀ (files : List String) (coins : Coins),
      isErr (loadBatchLoop fs p labels t files coins).1 = true
        ↔ ∃ f ∈ files, fs (pathJoin p f) = none ∨ pyDictLookup labels f = none := by
  intro files
  induction files with
  | nil => intro coins; simp [loadBatchLoop, isErr]
  | cons a rest ih =>
    intro coins
    simp only [loadBatchLoop]
    cases hfs : fs (pathJoin p a) with
    | none => simp [isErr, hfs]
    | some img0 =>
      cases hlab : pyDictLookup labels a with
      | none => simp [isErr, hfs, hlab]
      | some lab =>
        cases hrec : loadBatchLoop fs p labels t rest
            (if t then coins.tail else coins) with
        | mk res coins2 =>
          have hih := ih (if t then coins.tail else coins)
          rw [hrec] at hih
          cases res with
          | ok pr =>
            cases pr with
            | mk imgs labs =>
              simp only [isErr] at hih
              have hrest : ¬ ∃ f ∈ rest,
                  fs (pathJoin p f) = none ∨ pyDictLookup labels f = none := by
                intro hx
                have := hih.mpr hx
                simp at this
              simp only [isErr]
              constructor
              · intro hx; simp at hx
              · rintro ⟨f, hf, hor⟩
                rcases List.mem_cons.mp hf with rfl | hf2
                · rcases hor with h1 | h1
                  · rw [hfs] at h1; exact absurd h1 (by simp)
                  · rw [hlab] at h1; exact absurd h1 (by simp)
                · exact absurd ⟨f, hf2, hor⟩ hrest
          | error e =>
            simp only [isErr] at hih ⊢
            constructor
            · intro _
              obtain ⟨f, hf, hor⟩ := hih.mp trivial
              exact ⟨f, by simp [hf], hor⟩
            · intro _; trivial

theorem loadBatchLoop_error_spec (fs : String → Option Image)
    (p : String) (labels : Dict) (t : Bool) :
    ∀ (files : List String) (coins : Coins) (e : LoadError),
      (loadBatchLoop fs p labels t files coins).1 = Except.error e →
      ∃ f ∈ files,
        (e = LoadError.fileNotFound f ∧ fs (pathJoin p f) = none)
        ∨ (e = LoadError.keyMissing f ∧ pyDictLookup labels f = none) := by
  intro files
  induction files with
  | nil => intro coins e he; simp [loadBatchLoop] at he
  | cons a rest ih =>
    intro coins e he
    simp only [loadBatchLoop] at he
    cases hfs : fs (pathJoin p a) with
    | none =>
      rw [hfs] at he
      simp at he
      exact ⟨a, by simp, Or.inl ⟨he.symm, hfs⟩⟩
    | some img0 =>
      rw [hfs] at he
      simp only at he
      cases hlab : pyDictLookup labels a with
      | none =>
        rw [hlab] at he
        simp at he
        exact ⟨a, by simp, Or.inr ⟨he.symm, hlab⟩⟩
      | some lab =>
        rw [hlab] at he
        simp only at he
        cases hrec : loadBatchLoop fs p labels t rest
            (if t then coins.tail else coins) with
        | mk res coins2 =>
          rw [hrec] at he
          cases res with
          | ok pr =>
            cases pr with
            | mk imgs labs => simp at he
          | error e2 =>
            simp at he
            obtain ⟨f, hf, hor⟩ := ih _ e2 (by rw [hrec])
            exact ⟨f, by simp [hf], by rw [← he]; exact hor⟩

theorem loadBatchLoop_false_coins (fs : String → Option Image)
    (p : String) (labels : Dict) :
    ∀ (files : List String) (coins : Coins),
      loadBatchLoop fs p labels false files coins
        = ((loadBatchLoop fs p labels false files []).1, coins) := by
  intro files
  induction files with
  | nil => intro coins; simp [loadBatchLoop]
  | cons a rest ih =>
    intro coins
    simp only [loadBatchLoop]
    cases hfs : fs (pathJoin p a) with
    | none => simp
    | some img0 =>
      cases hlab : pyDictLookup labels a with
      | none => simp
      | some lab =>
        simp only [Bool.false_and, if_neg (by simp : ¬ false = true)]
        rw [ih coins, ih []]
        cases hrec : (loadBatchLoop fs p labels false rest []).1 with
        | ok pr =>
          cases pr with
          | mk imgs labs => simp
        | error e => simp

/-- On success, the loop returns one processed image and one looked-up label
per filename, in order: the i-th image is the opened file converted to RGB,
resized to `IMAGE_SIZE × IMAGE_SIZE` and possibly mirrored, and the i-th
label is the table entry of the i-th filename. -/
theorem loadBatchLoop_ok_spec (fs : String → Option Image)
    (p : String) (labels : Dict) (t : Bool) :
    ∀ (files : List String) (coins : Coins) (imgs : List Image)
      (labs : List Label) (coins1 : Coins),
      loadBatchLoop fs p labels t files coins = (Except.ok (imgs, labs), coins1) →
      imgs.length = files.length ∧ labs.length = files.length ∧
      ∀ i (hi : i < files.length), ∃ (raw : Image) (flip : Bool)
        (hi2 : i < imgs.length) (hi3 : i < labs.length),
        fs (pathJoin p (files.get ⟨i, hi⟩)) = some raw ∧
        imgs.get ⟨i, hi2⟩ =
          (if flip then
            pilMirror (pilResize (pilConvertRGB raw) IMAGE_SIZE IMAGE_SIZE)
          else pilResize (pilConvertRGB raw) IMAGE_SIZE IMAGE_SIZE) ∧
        pyDictLookup labels (files.get ⟨i, hi⟩) = some (labs.get ⟨i, hi3⟩) := by
  intro files
  induction files with
  | nil =>
    intro coins imgs labs coins1 he
    simp [loadBatchLoop] at he
    obtain ⟨⟨h1, h2⟩, h3⟩ := he
    subst h1; subst h2
    exact ⟨rfl, rfl, fun i hi => absurd hi (by simp)⟩
  | cons a rest ih =>
    intro coins imgs labs coins1 he
    simp only [loadBatchLoop] at he
    cases hfs : fs (pathJoin p a) with
    | none => rw [hfs] at he; simp at he
    | some img0 =>
      rw [hfs] at he
      simp only at he
      cases hlab : pyDictLookup labels a with
      | none => rw [hlab] at he; simp at he
      | some lab =>
        rw [hlab] at he
        simp only at he
        cases hrec : loadBatchLoop fs p labels t rest
            (if t then coins.tail else coins) with
        | mk res coins2 =>
          rw [hrec] at he
          cases res with
          | error e2 => simp at he
          | ok pr =>
            cases pr with
            | mk imgs2 labs2 =>
              simp only [Except.ok.injEq, Prod.mk.injEq] at he
              obtain ⟨⟨h1, h2⟩, h3⟩ := he
              subst h1; subst h2
              obtain ⟨hl1, hl2, hspec⟩ := ih _ imgs2 labs2 coins2 hrec
              refine ⟨by simp [hl1], by simp [hl2], ?_⟩
              intro i hi
              cases i with
              | zero =>
                refine ⟨img0, t && coins.headD false, by simp, by simp,
                  hfs, ?_, ?_⟩
                · simp
                · simpa using hlab
              | succ i =>
                have hi' : i < rest.length := by simpa using hi
                obtain ⟨raw, flip, hi2, hi3, hraw, himg, hlb⟩ := hspec i hi'
                exact ⟨raw, flip, by simpa using hi2, by simpa using hi3,
                  hraw, himg, hlb⟩

theorem batchSlice_disjoint (files : List String) (hnd : files.Nodup)
    (b : Nat) (i j : Nat) (hij : i < j) (x : String)
    (hxi : x ∈ batchSlice files b i) (hxj : x ∈ batchSlice files b j) :
    False := by
  have hle : i * b + b ≤ j * b := by
    have : (i + 1) * b ≤ j * b := Nat.mul_le_mul_right b hij
    rwa [Nat.succ_mul] at this
  exact (List.disjoint_take_drop hnd hle)
    (batchSlice_subset_take files b i x hxi)
    (batchSlice_subset_drop files b j x hxj)

theorem load_batch_fst_error_iff (fs : String → Option Image) (p : String)
    (labels : Dict) (files : List String) (t : Bool) (coins : Coins)
    (e : LoadError) :
    (load_batch fs p labels files t coins).1 = Except.error e
      ↔ (loadBatchLoop fs p labels t files coins).1 = Except.error e := by
  simp only [load_batch]
  cases hrec : loadBatchLoop fs p labels t files coins with
  | mk res c =>
    cases res with
    | ok pr => cases pr with | mk i l => simp
    | error e2 => simp

theorem load_batch_fst_isErr (fs : String → Option Image) (p : String)
    (labels : Dict) (files : List String) (t : Bool) (coins : Coins) :
    isErr (load_batch fs p labels files t coins).1
      = isErr (loadBatchLoop fs p labels t files coins).1 := by
  simp only [load_batch]
  cases hrec : loadBatchLoop fs p labels t files coins with
  | mk res c =>
    cases res with
    | ok pr => cases pr with | mk i l => simp [isErr]
    | error e2 => simp [isErr]

theorem loadBatchStep_labels (fs : String → Option Image) (p : String)
    (s : RunState) (batch : List String) (t : Bool) :
    (loadBatchStep fs p s batch t).2.labels = s.labels := by
  simp only [loadBatchStep]

theorem generatorSteps_labels (fs : String → Option Image) (p : String)
    (files : List String) (t : Bool) :
    ∀ (n i : Nat) (s : RunState),
      (generatorSteps fs p files t i n s).1.labels = s.labels := by
  intro n
  induction n with
  | zero => intro i s; rfl
  | succ n ih =>
    intro i s
    simp only [generatorSteps]
    cases hstep : loadBatchStep fs p s (batchSlice files BATCH_SIZE i) t with
    | mk res s1 =>
      cases hrec : generatorSteps fs p files t (i + 1) n s1 with
      | mk s2 outs =>
        have h1 : s1.labels = s.labels := by
          have := loadBatchStep_labels fs p s (batchSlice files BATCH_SIZE i) t
          rw [hstep] at this
          exact this
        have h2 : s2.labels = s1.labels := by
          have := ih (i + 1) s1
          rw [hrec] at this
          exact this
        simp [h2, h1]

theorem trainGeneratorPass_labels (fs : String → Option Image) (p : String)
    (n : Nat) (s : RunState) :
    (trainGeneratorPass fs p n s).1.labels = s.labels := by
  simp only [trainGeneratorPass]
  rw [generatorSteps_labels]

theorem valGeneratorPass_labels (fs : String → Option Image) (p : String)
    (n : Nat) (s : RunState) :
    (valGeneratorPass fs p n s).1.labels = s.labels := by
  simp only [valGeneratorPass]
  rw [generatorSteps_labels]

theorem fitGeneratorLoop_labels (fs : String → Option Image) (p : String)
    (nt nv : Nat) :
    ∀ (e : Nat) (s : RunState),
      (fitGeneratorLoop fs p nt nv e s).labels = s.labels := by
  intro e
  induction e with
  | zero => intro s; rfl
  | succ e ih =>
    intro s
    simp only [fitGeneratorLoop]
    rw [ih, valGeneratorPass_labels, trainGeneratorPass_labels]

theorem dictKeys_append (a b : Dict) :
    dictKeys (a ++ b) = dictKeys a ++ dictKeys b :=
  List.map_append Prod.fst a b

/-- A filename in any generator batch comes from the pre-shuffle key array. -/
theorem batch_mem_keys (keys : List String) (seed : List Nat) (b i : Nat)
    (f : String) (hf : f ∈ batchSlice (npShuffle seed keys) b i) :
    f ∈ keys :=
  npShuffle_mem seed keys f
    (List.mem_of_mem_drop (List.mem_of_mem_take hf))

theorem processedShape (raw : Image) (flip : Bool) :
    (if flip then
        pilMirror (pilResize (pilConvertRGB raw) IMAGE_SIZE IMAGE_SIZE)
      else pilResize (pilConvertRGB raw) IMAGE_SIZE IMAGE_SIZE).width = IMAGE_SIZE
    ∧ (if flip then
        pilMirror (pilResize (pilConvertRGB raw) IMAGE_SIZE IMAGE_SIZE)
      else pilResize (pilConvertRGB raw) IMAGE_SIZE IMAGE_SIZE).height = IMAGE_SIZE
    ∧ (if flip then
        pilMirror (pilResize (pilConvertRGB raw) IMAGE_SIZE IMAGE_SIZE)
      else pilResize (pilConvertRGB raw) IMAGE_SIZE IMAGE_SIZE).channels = 3 := by
  cases flip <;> simp [pilMirror, pilResize, pilConvertRGB]

theorem preprocess_shape (img : Image) :
    (preprocess_input img).width = img.width
    ∧ (preprocess_input img).height = img.height
    ∧ (preprocess_input img).channels = img.channels := by
  simp [preprocess_input]

/-! ## Claims -/

/-- C1: for every file list of length n and configured batch size b > 0,
when the generator is run with `num_of_steps = n // b`, every batch of
filenames it yields (the i-th `BATCH_SIZE`-style slice of the shuffled
file array) matches the requested size b; the final-partial-batch
allowance is never even needed. -/
theorem c1_generator_batch_size (files0 : List String) (seed : List Nat)
    (b : Nat) (hb : 0 < b) (i : Nat) (hi : i < files0.length / b) :
    (batchSlice (npShuffle seed files0) b i).length = b
    ∨ (i + 1 = files0.length / b
        ∧ (batchSlice (npShuffle seed files0) b i).length < b) :=
  Or.inl (batchSlice_length (npShuffle seed files0) b i hb
    (by rw [npShuffle_length]; exact hi))

/-- Witness for C1 at a 5-element file list with batch size 2. -/
theorem c1_generator_batch_size_witness :
    0 < 2 ∧ 0 < (["a", "b", "c", "d", "e"] : List String).length / 2
    ∧ ((batchSlice (npShuffle [3] ["a", "b", "c", "d", "e"]) 2 0).length = 2
        ∨ (0 + 1 = (["a", "b", "c", "d", "e"] : List String).length / 2
            ∧ (batchSlice (npShuffle [3] ["a", "b", "c", "d", "e"]) 2 0).length < 2)) :=
  ⟨by decide, by decide,
    c1_generator_batch_size ["a", "b", "c", "d", "e"] [3] 2 (by decide) 0 (by decide)⟩

/-- C3 counterexample: the claim says a training run writes checkpoint
files, but the `model.fit_generator` call passes `callbacks=[ ]`, so the
set of checkpoint path templates written by the run is empty. -/
theorem c3_no_checkpoint_counterexample :
    checkpointTemplatesWritten fitGeneratorCallbacksArg = [] := rfl

/-- C3 amended: the run builds a checkpoint path template `weights_file`
whose format arguments (0.001 and 16) equal the hyperparameters
`LEARNING_RATE` and `BATCH_SIZE` in effect, but it passes an empty
callback list to `fit_generator`, so no checkpoint file is written. -/
theorem c3_weights_template_amended (home : String) :
    weights_file home
      = EXPERIMENT_OUTPUT_PATH home
          ++ "/lr_0.001_bz_16_loss_\x7bval_loss:.3f\x7d_epoch_\x7bepoch:02d\x7d.h5"
    ∧ weightsFileLrArg = LEARNING_RATE
    ∧ weightsFileBzArg = BATCH_SIZE
    ∧ checkpointTemplatesWritten fitGeneratorCallbacksArg = [] := by
  refine ⟨?_, rfl, rfl, rfl⟩
  rw [weights_file, String.append_assoc]
  have h : ("/lr_0.001_bz_16"
        ++ "_loss_\x7bval_loss:.3f\x7d_epoch_\x7bepoch:02d\x7d.h5" : String)
      = "/lr_0.001_bz_16_loss_\x7bval_loss:.3f\x7d_epoch_\x7bepoch:02d\x7d.h5" := by
    decide
  rw [h]

/-- C5: all four data paths of the chest-X-ray notebook are the value of
the `HOME` environment variable concatenated with a fixed suffix. -/
theorem c5_paths_from_home :
    ∀ home : String,
      EXPERIMENT_OUTPUT_PATH home = home ++ "/notebooks/output/experiment"
      ∧ IMAGES_PATH home = home ++ "/notebooks/images_all"
      ∧ TRAINING_LABELS home = home ++ "/notebooks/training_labels_new.pkl"
      ∧ VALIDATION_LABELS home = home ++ "/notebooks/validation_labels_new.pkl" :=
  fun _ => ⟨rfl, rfl, rfl, rfl⟩

/-- C8: within one pass of `train_generator` the batches are consecutive
slices of one permutation of the file list, and, the file list having no
duplicates, no filename appears in more than one batch. -/
theorem c8_batches_pairwise_disjoint (files0 : List String)
    (hnd : files0.Nodup) (seed : List Nat) :
    List.Perm (npShuffle seed files0) files0
    ∧ ∀ (b i j : Nat) (x : String), i ≠ j →
        x ∈ batchSlice (npShuffle seed files0) b i →
        x ∈ batchSlice (npShuffle seed files0) b j → False := by
  refine ⟨npShuffle_perm seed files0, ?_⟩
  intro b i j x hij hxi hxj
  rcases Nat.lt_or_ge i j with h | h
  · exact batchSlice_disjoint (npShuffle seed files0)
      (npShuffle_nodup seed files0 hnd) b i j h x hxi hxj
  · have hj : j < i := Nat.lt_of_le_of_ne h (Ne.symm hij)
    exact batchSlice_disjoint (npShuffle seed files0)
      (npShuffle_nodup seed files0 hnd) b j i hj x hxj hxi

/-- Witness for C8 at a concrete duplicate-free 3-element file list. -/
theorem c8_batches_pairwise_disjoint_witness :
    (["a", "b", "c"] : List String).Nodup
    ∧ (List.Perm (npShuffle [1, 0] ["a", "b", "c"]) ["a", "b", "c"]
        ∧ ∀ (b i j : Nat) (x : String), i ≠ j →
            x ∈ batchSlice (npShuffle [1, 0] ["a", "b", "c"]) b i →
            x ∈ batchSlice (npShuffle [1, 0] ["a", "b", "c"]) b j → False) :=
  ⟨by decide, c8_batches_pairwise_disjoint ["a", "b", "c"] (by decide) [1, 0]⟩

/-- C10: the MNIST Sequential MLP (Dense 784→512, Dense 512→512,
Dense 512→10, one bias per neuron, dropout layers parameter-free) has
exactly 401920 + 262656 + 5130 = 669706 trainable parameters. -/
theorem c10_mnist_param_count :
    paramCount mnistInputDim mnistModelLayers = 401920 + 262656 + 5130
    ∧ paramCount mnistInputDim mnistModelLayers = 669706 := by
  constructor <;> rfl

/-- C2: for every batch of filenames drawn from the keys of the training
or validation label dictionaries, the lookup `labels[filename]` in the
merged table succeeds for every filename, and `load_batch` can never fail
with the key-missing error. -/
theorem c2_label_lookup_total (training_labels validation_labels : Dict)
    (fs : String → Option Image) (p : String) (t : Bool) (coins : Coins)
    (files : List String)
    (hfiles : ∀ f ∈ files,
      f ∈ dictKeys training_labels ∨ f ∈ dictKeys validation_labels) :
    (∀ f ∈ files,
      (pyDictLookup (mergedLabels training_labels validation_labels) f).isSome)
    ∧ ∀ f, (load_batch fs p (mergedLabels training_labels validation_labels)
          files t coins).1
        ≠ Except.error (LoadError.keyMissing f) := by
  have hsome : ∀ f ∈ files,
      (pyDictLookup (mergedLabels training_labels validation_labels) f).isSome := by
    intro f hf
    rw [pyDictLookup_isSome_iff, mergedLabels, dictKeys_append, List.mem_append]
    exact hfiles f hf
  refine ⟨hsome, ?_⟩
  intro f he
  rw [load_batch_fst_error_iff] at he
  exact loadBatchLoop_no_keyMissing fs p
    (mergedLabels training_labels validation_labels) t files coins hsome f he

/-- Witness for C2 at concrete one-entry dictionaries. -/
theorem c2_label_lookup_total_witness :
    (∀ f ∈ (["a", "b"] : List String),
      f ∈ dictKeys [("a", [1])] ∨ f ∈ dictKeys [("b", [0])])
    ∧ (∀ f ∈ (["a", "b"] : List String),
        (pyDictLookup (mergedLabels [("a", [1])] [("b", [0])]) f).isSome)
    ∧ ∀ f, (load_batch (fun _ => some (Image.mk 1 1 1 [200])) "/img"
          (mergedLabels [("a", [1])] [("b", [0])]) ["a", "b"] true []).1
        ≠ Except.error (LoadError.keyMissing f) :=
  ⟨by decide,
    (c2_label_lookup_total [("a", [1])] [("b", [0])]
      (fun _ => some (Image.mk 1 1 1 [200])) "/img" true [] ["a", "b"]
      (by decide)).1,
    (c2_label_lookup_total [("a", [1])] [("b", [0])]
      (fun _ => some (Image.mk 1 1 1 [200])) "/img" true [] ["a", "b"]
      (by decide)).2⟩

/-- C4: the merged label table is immutable during a run: a `load_batch`
yield, a `train_generator` or `val_generator` pass, and the whole
`fit_generator` training loop all leave the `labels` component of the run
state unchanged. -/
theorem c4_labels_immutable (fs : String → Option Image) (p : String)
    (s : RunState) (batch : List String) (t : Bool) (nt nv e : Nat) :
    (loadBatchStep fs p s batch t).2.labels = s.labels
    ∧ (trainGeneratorPass fs p nt s).1.labels = s.labels
    ∧ (valGeneratorPass fs p nv s).1.labels = s.labels
    ∧ (fitGeneratorLoop fs p nt nv e s).labels = s.labels :=
  ⟨loadBatchStep_labels fs p s batch t,
    trainGeneratorPass_labels fs p nt s,
    valGeneratorPass_labels fs p nv s,
    fitGeneratorLoop_labels fs p nt nv e s⟩

/-- C6: `load_batch` fails exactly when some filename in the batch names a
missing image file or is absent from the label table, and the error it
propagates is the underlying file-not-found or key-missing error of an
actually failing filename; otherwise it returns the arrays. -/
theorem c6_load_batch_error_iff (fs : String → Option Image) (p : String)
    (labels : Dict) (files : List String) (t : Bool) (coins : Coins) :
    (isErr (load_batch fs p labels files t coins).1 = true
      ↔ ∃ f ∈ files, fs (pathJoin p f) = none ∨ pyDictLookup labels f = none)
    ∧ ∀ e, (load_batch fs p labels files t coins).1 = Except.error e →
        ∃ f ∈ files,
          (e = LoadError.fileNotFound f ∧ fs (pathJoin p f) = none)
          ∨ (e = LoadError.keyMissing f ∧ pyDictLookup labels f = none) := by
  constructor
  · rw [load_batch_fst_isErr]
    exact loadBatchLoop_err_iff fs p labels t files coins
  · intro e he
    rw [load_batch_fst_error_iff] at he
    exact loadBatchLoop_error_spec fs p labels t files coins e he

/-- Witness for C6 at a batch whose single filename has no image file. -/
theorem c6_load_batch_error_iff_witness :
    (isErr (load_batch (fun _ => none) "/img" [("a", [1])] ["a"] false []).1 = true
      ↔ ∃ f ∈ (["a"] : List String),
          (fun _ => (none : Option Image)) (pathJoin "/img" f) = none
          ∨ pyDictLookup [("a", [1])] f = none)
    ∧ ∀ e, (load_batch (fun _ => none) "/img" [("a", [1])] ["a"] false []).1
          = Except.error e →
        ∃ f ∈ (["a"] : List String),
          (e = LoadError.fileNotFound f
            ∧ (fun _ => (none : Option Image)) (pathJoin "/img" f) = none)
          ∨ (e = LoadError.keyMissing f ∧ pyDictLookup [("a", [1])] f = none) :=
  c6_load_batch_error_iff (fun _ => none) "/img" [("a", [1])] ["a"] false []

/-- C7: on success `load_batch` returns a fixed-shape batch: one image per
filename, each the `preprocess_input`-normalized version of the opened
file converted to 3 RGB channels and resized to
`IMAGE_SIZE × IMAGE_SIZE` (possibly mirrored), and the i-th label is
exactly the label-table entry of the i-th filename. -/
theorem c7_load_batch_shape (fs : String → Option Image) (p : String)
    (labels : Dict) (files : List String) (t : Bool) (coins : Coins)
    (imgs : List Image) (labs : List Label) (coins1 : Coins)
    (hok : load_batch fs p labels files t coins
      = (Except.ok (imgs, labs), coins1)) :
    imgs.length = files.length ∧ labs.length = files.length ∧
    ∀ i (hi : i < files.length), ∃ (hi2 : i < imgs.length)
      (hi3 : i < labs.length),
      (imgs.get ⟨i, hi2⟩).width = IMAGE_SIZE
      ∧ (imgs.get ⟨i, hi2⟩).height = IMAGE_SIZE
      ∧ (imgs.get ⟨i, hi2⟩).channels = 3
      ∧ (∃ (raw : Image) (flip : Bool),
          fs (pathJoin p (files.get ⟨i, hi⟩)) = some raw
          ∧ imgs.get ⟨i, hi2⟩ = preprocess_input
              (if flip then
                pilMirror (pilResize (pilConvertRGB raw) IMAGE_SIZE IMAGE_SIZE)
              else pilResize (pilConvertRGB raw) IMAGE_SIZE IMAGE_SIZE))
      ∧ pyDictLookup labels (files.get ⟨i, hi⟩) = some (labs.get ⟨i, hi3⟩) := by
  rw [load_batch] at hok
  cases hrec : loadBatchLoop fs p labels t files coins with
  | mk res coins2 =>
    rw [hrec] at hok
    cases res with
    | error e => simp at hok
    | ok pr =>
      cases pr with
      | mk imgs0 labs0 =>
        simp only [Except.ok.injEq, Prod.mk.injEq] at hok
        obtain ⟨⟨h1, h2⟩, h3⟩ := hok
        subst h2
        subst h1
        obtain ⟨hl1, hl2, hspec⟩ :=
          loadBatchLoop_ok_spec fs p labels t files coins imgs0 labs0 coins2 hrec
        have hlen : (List.map preprocess_input imgs0).length = files.length := by
          rw [List.length_map, hl1]
        refine ⟨hlen, hl2, ?_⟩
        intro i hi
        obtain ⟨raw, flip, hi2, hi3, hraw, himg, hlb⟩ := hspec i hi
        have hi2' : i < (List.map preprocess_input imgs0).length := by
          rw [hlen]; exact hi
        have hget : (List.map preprocess_input imgs0).get ⟨i, hi2'⟩
            = preprocess_input (imgs0.get ⟨i, hi2⟩) := by
          simp
        obtain ⟨hw, hh, hc⟩ := processedShape raw flip
        refine ⟨hi2', hi3, ?_, ?_, ?_, ⟨raw, flip, hraw, by rw [hget, himg]⟩, hlb⟩
        · rw [hget, (preprocess_shape _).1, himg]; exact hw
        · rw [hget, (preprocess_shape _).2.1, himg]; exact hh
        · rw [hget, (preprocess_shape _).2.2, himg]; exact hc

/-- Witness for C7 at a one-file batch. -/
theorem c7_load_batch_shape_witness :
    load_batch (fun _ => some (Image.mk 1 1 1 [200])) "/img"
        [("a.png", [1, 0])] ["a.png"] false []
      = (Except.ok ([Image.mk 256 256 3 [83]], [[1, 0]]), [])
    ∧ ([Image.mk 256 256 3 [83]] : List Image).length
        = (["a.png"] : List String).length
    ∧ ([[1, 0]] : List Label).length = (["a.png"] : List String).length
    ∧ ∀ i (hi : i < (["a.png"] : List String).length),
      ∃ (hi2 : i < ([Image.mk 256 256 3 [83]] : List Image).length)
        (hi3 : i < ([[1, 0]] : List Label).length),
        (([Image.mk 256 256 3 [83]] : List Image).get ⟨i, hi2⟩).width = IMAGE_SIZE
        ∧ (([Image.mk 256 256 3 [83]] : List Image).get ⟨i, hi2⟩).height = IMAGE_SIZE
        ∧ (([Image.mk 256 256 3 [83]] : List Image).get ⟨i, hi2⟩).channels = 3
        ∧ (∃ (raw : Image) (flip : Bool),
            (fun _ => some (Image.mk 1 1 1 [200]))
                (pathJoin "/img" ((["a.png"] : List String).get ⟨i, hi⟩))
              = some raw
            ∧ ([Image.mk 256 256 3 [83]] : List Image).get ⟨i, hi2⟩
              = preprocess_input
                (if flip then
                  pilMirror (pilResize (pilConvertRGB raw) IMAGE_SIZE IMAGE_SIZE)
                else pilResize (pilConvertRGB raw) IMAGE_SIZE IMAGE_SIZE))
        ∧ pyDictLookup [("a.png", [1, 0])] ((["a.png"] : List String).get ⟨i, hi⟩)
          = some (([[1, 0]] : List Label).get ⟨i, hi3⟩) :=
  ⟨rfl,
    c7_load_batch_shape (fun _ => some (Image.mk 1 1 1 [200])) "/img"
      [("a.png", [1, 0])] ["a.png"] false []
      [Image.mk 256 256 3 [83]] [[1, 0]] [] rfl⟩

/-- C9: with `is_training=False`, `load_batch` is deterministic: its
result does not depend on the random stream, and it consumes no random
draws (the mirror augmentation is gated on `is_training`). -/
theorem c9_load_batch_deterministic (fs : String → Option Image)
    (p : String) (labels : Dict) (files : List String)
    (coins coins2 : Coins) :
    (load_batch fs p labels files false coins).1
      = (load_batch fs p labels files false coins2).1
    ∧ (load_batch fs p labels files false coins).2 = coins := by
  constructor
  · simp only [load_batch]
    rw [loadBatchLoop_false_coins fs p labels files coins,
        loadBatchLoop_false_coins fs p labels files coins2]
    cases (loadBatchLoop fs p labels false files []).1 with
    | ok pr => cases pr with | mk i l => simp
    | error e => simp
  · simp only [load_batch]
    rw [loadBatchLoop_false_coins fs p labels files coins]
    cases (loadBatchLoop fs p labels false files []).1 with
    | ok pr => cases pr with | mk i l => simp
    | error e => simp

end AIworkshop
